import Mathlib

/-
Verification of the stable-file detection core of screenshot_monitor.py.

The embedding models the watchdog event handler ScreenshotHandler and the
polling helper _wait_for_stable_file (source lines 48 to 81), together with
the small pieces of TrayApp that the claims mention (the pause flag and the
on_new_file consumer, source lines 330 to 348).

Time is modelled discretely: the body of the polling loop ends with
time.sleep(0.08) (line 80), so iteration k of the loop runs at elapsed time
k times 80 ms, and the loop guard, elapsed time below the timeout (line 72),
holds exactly for the iterations k with 80 * k < timeoutMs.  The number of
loop iterations is therefore numPolls, the ceiling of timeoutMs / 80.
A poll of the file size, path.stat().st_size under try/except
FileNotFoundError (lines 73 to 79), is modelled as a function from the poll
index to a PollResult.
-/

/-- Result of one size poll of the candidate file, modelling the call
path.stat().st_size at line 74 of the source: either the current size in
bytes, or the FileNotFoundError caught at line 78. -/
inductive PollResult where
  | found (size : Nat)
  | notFound
  deriving DecidableEq

/-- The three ways a stability check can end.  The source function
_wait_for_stable_file collapses these to a Bool, True for stable and for
the best effort timeout at line 81, False for the vanished case at line 79;
the spec names them Stable, TimedOutAssumedStable and VanishedBeforeStable. -/
inductive Verdict where
  | stable
  | vanishedBeforeStable
  | timedOutAssumedStable
  deriving DecidableEq

/-- The accepted image extensions, source line 25.  The source uses a Python
set literal; membership is the only operation performed on it, so a list
with the same elements is an equivalent model. -/
def IMAGE_EXTS : List String := [".png", ".jpg", ".jpeg", ".bmp", ".gif", ".webp"]

/-- The polling cadence in milliseconds: time.sleep(0.08) at source line 80. -/
def POLL_INTERVAL_MS : Nat := 80

/-- The default stability timeout in milliseconds: the parameter
timeout_s = 2.5 of _wait_for_stable_file at source line 69. -/
def DEFAULT_TIMEOUT_MS : Nat := 2500

/-- Number of iterations the polling loop performs before the guard at
source line 72 fails: the number of k with pollMs * k < timeoutMs, that is
the ceiling of timeoutMs / pollMs. -/
def numPolls (pollMs timeoutMs : Nat) : Nat := (timeoutMs + pollMs - 1) / pollMs

/-- The polling loop of _wait_for_stable_file, source lines 70 to 81,
returning the Bool of the source.  The first argument of the recursion is
the remaining number of iterations allowed by the loop guard; lastSize is
the variable last_size (initialised to the sentinel -1 at line 71, written
as an integer since real sizes are naturals); k is the current poll index.
Fuel 0 is the guard failing, which returns True at line 81.  A notFound
poll returns False at line 79.  Two consecutive equal nonzero readings
return True at line 76; otherwise last_size is updated (line 77) and the
loop continues. -/
def waitB (readAt : Nat → PollResult) : Nat → Int → Nat → Bool
  | 0, _, _ => true
  | r + 1, lastSize, k =>
    match readAt k with
    | PollResult.notFound => false
    | PollResult.found size =>
      if 0 < size ∧ (size : Int) = lastSize then true
      else waitB readAt r (size : Int) (k + 1)

/-- The same loop as waitB, instrumented to report which of the three
verdicts of the spec ended the check, and at which poll index the check
returned (for the timeout case, the first index at which the guard fails). -/
def waitGo (readAt : Nat → PollResult) : Nat → Int → Nat → Verdict × Nat
  | 0, _, k => (Verdict.timedOutAssumedStable, k)
  | r + 1, lastSize, k =>
    match readAt k with
    | PollResult.notFound => (Verdict.vanishedBeforeStable, k)
    | PollResult.found size =>
      if 0 < size ∧ (size : Int) = lastSize then (Verdict.stable, k)
      else waitGo readAt r (size : Int) (k + 1)

/-- The Bool the source returns for each verdict: False exactly for the
vanished case. -/
def isNotVanished : Verdict → Bool
  | Verdict.vanishedBeforeStable => false
  | Verdict.stable => true
  | Verdict.timedOutAssumedStable => true

/-- _wait_for_stable_file, source lines 68 to 81, as the source has it:
poll interval fixed at 80 ms, timeout a parameter (2.5 s by default),
result a Bool. -/
def wait_for_stable_file (readAt : Nat → PollResult) (timeoutMs : Nat) : Bool :=
  waitB readAt (numPolls POLL_INTERVAL_MS timeoutMs) (-1) 0

/-- The instrumented form of the same check, giving the verdict and the
poll index at which the check returned. -/
def wait_verdict (readAt : Nat → PollResult) (pollMs timeoutMs : Nat) : Verdict × Nat :=
  waitGo readAt (numPolls pollMs timeoutMs) (-1) 0

/-- Helper for pathName: scan the characters, restarting the accumulator at
every path separator, so that the final accumulator holds the characters
after the last separator. -/
def pathNameAux : List Char → List Char → List Char
  | [], acc => acc.reverse
  | c :: cs, acc =>
    if c = '/' ∨ c = '\\' then pathNameAux cs []
    else pathNameAux cs (c :: acc)

/-- The final component of a path, as pathlib Path.name: the characters
after the last path separator (slash or backslash). -/
def pathName (s : List Char) : List Char := pathNameAux s []

/-- The index of the last dot in a list of characters, if any, as the
Python expression name.rfind with a dot argument. -/
def lastDotIdx : List Char → Option Nat
  | [] => none
  | c :: cs =>
    match lastDotIdx cs with
    | some i => some (i + 1)
    | none => if c = '.' then some 0 else none

/-- pathlib Path.suffix on the final component: the substring from the last
dot on, provided that dot is neither the first nor the last character of
the name; otherwise the empty string. -/
def pathSuffix (s : List Char) : List Char :=
  let name := pathName s
  match lastDotIdx name with
  | some i => if 0 < i ∧ i + 1 < name.length then name.drop i else []
  | none => []

/-- path.suffix.lower() at source line 61.  Char.toLower is the ASCII
lowercasing of Lean core, which agrees with Python str.lower on the ASCII
extensions compared against IMAGE_EXTS. -/
def pathSuffixLower (s : String) : String :=
  String.mk ((pathSuffix s.toList).map Char.toLower)

/-- The fields of a watchdog file creation event that on_created reads:
event.is_directory (line 58) and event.src_path (line 60). -/
structure FsEvent where
  is_directory : Bool
  src_path : String

/-- ScreenshotHandler.on_created, source lines 57 to 66, as the list of
paths emitted on the file_created signal for this event: empty when the
event is filtered out or the stability check returns False, and the single
source path when the check returns True.  The source wraps event.src_path
in a pathlib Path and emits str(path); that round trip is modelled as the
identity on the path string. -/
def on_created (readAt : Nat → PollResult) (event : FsEvent) : List String :=
  if event.is_directory then []
  else if pathSuffixLower event.src_path ∈ IMAGE_EXTS then
    if wait_for_stable_file readAt DEFAULT_TIMEOUT_MS then [event.src_path] else []
  else []

/-- The AppConfig dataclass, source lines 37 to 41: exactly three fields.
The extension set, poll interval and stability timeout of the core are not
among them; they live in the module constant IMAGE_EXTS and in the
constants of _wait_for_stable_file modelled above. -/
structure AppConfig where
  watch_dir : String
  popup_seconds : Nat
  max_preview_size : Nat

/-- An AppConfig built with the dataclass field defaults popup_seconds = 5
and max_preview_size = 220 of source lines 40 and 41. -/
def AppConfig.withDefaults (watch_dir : String) : AppConfig :=
  AppConfig.mk watch_dir 5 220

/-- TrayApp.on_new_file, source lines 344 to 348, as the preview popup it
shows: none when the pause flag is set, otherwise a popup for the path.
This is the only place the pause flag is read during event delivery. -/
def on_new_file (paused : Bool) (file_path : String) : Option String :=
  if paused then none else some file_path

/-- The full pipeline for one filesystem event: the list of file_created
signals the watcher emits, paired with the list of preview popups the
consumer shows for them.  The watcher side, on_created, takes no pause
argument because the source handler never reads the pause flag; only the
consumer side on_new_file does. -/
def handle_event (paused : Bool) (readAt : Nat → PollResult) (event : FsEvent) :
    List String × List String :=
  (on_created readAt event, (on_created readAt event).filterMap (on_new_file paused))

/-- The property that the size sequence holds the value F from index G on. -/
def heldFrom (sz : Nat → Nat) (G F : Nat) : Prop := ∀ k, G ≤ k → sz k = F

/-- Concrete poll sequence for the claim C1 witness: every poll reads 7. -/
def wit1Read (_ : Nat) : PollResult := PollResult.found 7

/-- Concrete poll sequence for the claim C2 witness: every poll reads 5. -/
def wit2Read (_ : Nat) : PollResult := PollResult.found 5

/-- Concrete poll sequence for the claim C3 witness: the size grows by one
byte every poll and never repeats. -/
def wit3Read (k : Nat) : PollResult := PollResult.found (k + 1)

/-- Concrete poll sequence for the claim C4 witness: one successful read of
3 bytes, then the file is gone. -/
def wit4Read (k : Nat) : PollResult :=
  if k = 0 then PollResult.found 3 else PollResult.notFound

/-- Concrete poll sequence for the claim C5 witness: every poll reads 0. -/
def wit5Read (_ : Nat) : PollResult := PollResult.found 0

/-- Size sequence for the claim C6 witness: 1, 2, 2, 2, ... so the final
value 2 is reached at poll 1 and held ever after. -/
def wit6Size (k : Nat) : Nat := min (k + 1) 2

/-- Poll sequence for the claim C6 witness. -/
def wit6Read (k : Nat) : PollResult := PollResult.found (wit6Size k)

/-- Size sequence for the claim C6 counterexample: it grows by one byte per
80 ms poll until it reaches its final value 32 at poll index 31, 2480 ms
after the first observation, and is then held forever.  The confirming
second read of the final value would fall at poll index 32, 2560 ms, past
the 2500 ms deadline, so the check times out instead of returning Stable. -/
def cex6Size (k : Nat) : Nat := min (k + 1) 32

/-- Poll sequence for the claim C6 counterexample. -/
def cex6Read (k : Nat) : PollResult := PollResult.found (cex6Size k)

/-- Concrete poll sequence for the claim C7 witness: every poll reads 1. -/
def wit7Read (_ : Nat) : PollResult := PollResult.found 1

/-- Concrete poll sequence for claim C10: a zero byte file that persists
unchanged through the whole timeout window. -/
def zeroRead (_ : Nat) : PollResult := PollResult.found 0

/-- The loop guard at source line 72 holds at poll k exactly when k is
below numPolls: this ties the fuel of waitB and waitGo to the elapsed-time
guard of the source. -/
theorem lt_numPolls_iff (pollMs timeoutMs k : Nat) (hp : 0 < pollMs) :
    k < numPolls pollMs timeoutMs ↔ pollMs * k < timeoutMs := by
  unfold numPolls
  rw [Nat.lt_iff_add_one_le, Nat.le_div_iff_mul_le hp, Nat.succ_mul, Nat.mul_comm k pollMs]
  generalize pollMs * k = m
  omega

/-- The Bool the source returns and the instrumented verdict agree: the
source returns False exactly when the verdict is vanishedBeforeStable. -/
theorem waitB_eq_verdict (readAt : Nat → PollResult) :
    ∀ (r : Nat) (ls : Int) (k : Nat),
      waitB readAt r ls k = isNotVanished (waitGo readAt r ls k).1 := by
  intro r
  induction r with
  | zero => intro ls k; rfl
  | succ n ih =>
    intro ls k
    cases h : readAt k with
    | notFound => simp [waitB, waitGo, h, isNotVanished]
    | found size =>
      by_cases hc : 0 < size ∧ (size : Int) = ls
      · simp [waitB, waitGo, h, hc, isNotVanished]
      · simp [waitB, waitGo, h, hc, ih]

/-- If the loop returns stable, then two consecutive polls read the same
nonzero size, and the return index is the second of the two.  The invariant
on lastSize says it is either still the sentinel or the size read at the
previous poll. -/
theorem waitGo_stable_two_reads (readAt : Nat → PollResult) :
    ∀ (r : Nat) (ls : Int) (k : Nat),
      (ls = -1 ∨ (0 < k ∧ ∃ s0 : Nat, ls = (s0 : Int) ∧ readAt (k - 1) = PollResult.found s0)) →
      (waitGo readAt r ls k).1 = Verdict.stable →
      ∃ j s, 0 < s ∧ readAt j = PollResult.found s ∧ readAt (j + 1) = PollResult.found s ∧
        (waitGo readAt r ls k).2 = j + 1 := by
  intro r
  induction r with
  | zero =>
    intro ls k _ hst
    simp [waitGo] at hst
  | succ n ih =>
    intro ls k hinv hst
    cases h : readAt k with
    | notFound => simp [waitGo, h] at hst
    | found size =>
      by_cases hc : 0 < size ∧ (size : Int) = ls
      · rcases hinv with h1 | ⟨hk, s0, hls, hprev⟩
        · exfalso
          obtain ⟨hpos, heq⟩ := hc
          rw [h1] at heq
          omega
        · refine ⟨k - 1, size, hc.1, ?_, ?_, ?_⟩
          · have hss : size = s0 := by
              have heq := hc.2
              rw [hls] at heq
              exact_mod_cast heq
            rw [hss]
            exact hprev
          · rw [Nat.sub_add_cancel hk]
            exact h
          · simp [waitGo, h, hc]
            omega
      · have hst2 : (waitGo readAt n (size : Int) (k + 1)).1 = Verdict.stable := by
          simpa [waitGo, h, hc] using hst
        obtain ⟨j, s, hs, hj1, hj2, hidx⟩ :=
          ih (size : Int) (k + 1) (Or.inr ⟨Nat.succ_pos k, size, rfl, by simpa using h⟩) hst2
        exact ⟨j, s, hs, hj1, hj2, by simpa [waitGo, h, hc] using hidx⟩

/-- If the file is always found and no two consecutive readings are equal
and nonzero, the loop runs out its full fuel and times out, returning at
index k plus fuel. -/
theorem waitGo_no_stable_times_out (readAt : Nat → PollResult)
    (hfd : ∀ k, readAt k ≠ PollResult.notFound)
    (hns : ∀ j s, readAt j = PollResult.found s → readAt (j + 1) = PollResult.found s → s = 0) :
    ∀ (r : Nat) (ls : Int) (k : Nat),
      (ls = -1 ∨ (0 < k ∧ ∃ s0 : Nat, ls = (s0 : Int) ∧ readAt (k - 1) = PollResult.found s0)) →
      waitGo readAt r ls k = (Verdict.timedOutAssumedStable, k + r) := by
  intro r
  induction r with
  | zero => intro ls k _; simp [waitGo]
  | succ n ih =>
    intro ls k hinv
    cases h : readAt k with
    | notFound => exact absurd h (hfd k)
    | found size =>
      have hc : ¬(0 < size ∧ (size : Int) = ls) := by
        rintro ⟨hpos, heq⟩
        rcases hinv with h1 | ⟨hk, s0, hls, hprev⟩
        · rw [h1] at heq
          omega
        · have hss : size = s0 := by
            rw [hls] at heq
            exact_mod_cast heq
          subst hss
          have hz : size = 0 :=
            hns (k - 1) size hprev (by rw [Nat.sub_add_cancel hk]; exact h)
          omega
      have hrec := ih (size : Int) (k + 1) (Or.inr ⟨Nat.succ_pos k, size, rfl, by simpa using h⟩)
      simp [waitGo, h, hc, hrec]
      omega

/-- If every observed size reading is zero, the stable branch is never
taken, whatever the fuel, the poll index and the last size are. -/
theorem waitGo_zero_not_stable (readAt : Nat → PollResult)
    (hzero : ∀ k s, readAt k = PollResult.found s → s = 0) :
    ∀ (r : Nat) (ls : Int) (k : Nat), (waitGo readAt r ls k).1 ≠ Verdict.stable := by
  intro r
  induction r with
  | zero => intro ls k; simp [waitGo]
  | succ n ih =>
    intro ls k
    cases h : readAt k with
    | notFound => simp [waitGo, h]
    | found size =>
      have hz : size = 0 := hzero k size h
      have hc : ¬(0 < size ∧ (size : Int) = ls) := by
        rintro ⟨hpos, -⟩
        omega
      simp [waitGo, h, hc]
      exact ih (size : Int) (k + 1)

/-- If the check reaches a poll that reports the file missing, it returns
vanishedBeforeStable at exactly that poll.  The hypotheses say poll k0 is
the first notFound poll, that no stable pair occurs strictly before it, and
the invariant ties lastSize to the previous reading. -/
theorem waitGo_vanishes (readAt : Nat → PollResult) (k0 : Nat)
    (hnf : readAt k0 = PollResult.notFound)
    (hfd : ∀ j, j < k0 → readAt j ≠ PollResult.notFound)
    (hns : ∀ j s, j + 1 < k0 → readAt j = PollResult.found s →
      readAt (j + 1) = PollResult.found s → s = 0) :
    ∀ (r : Nat) (ls : Int) (k : Nat), k ≤ k0 → k0 < k + r →
      (ls = -1 ∨ (0 < k ∧ ∃ s0 : Nat, ls = (s0 : Int) ∧ readAt (k - 1) = PollResult.found s0)) →
      waitGo readAt r ls k = (Verdict.vanishedBeforeStable, k0) := by
  intro r
  induction r with
  | zero =>
    intro ls k hk hlt _
    exfalso
    omega
  | succ n ih =>
    intro ls k hk hlt hinv
    by_cases hkk : k = k0
    · subst hkk
      simp [waitGo, hnf]
    · have hklt : k < k0 := lt_of_le_of_ne hk hkk
      cases h : readAt k with
      | notFound => exact absurd h (hfd k hklt)
      | found size =>
        have hc : ¬(0 < size ∧ (size : Int) = ls) := by
          rintro ⟨hpos, heq⟩
          rcases hinv with h1 | ⟨hkpos, s0, hls, hprev⟩
          · rw [h1] at heq
            omega
          · have hss : size = s0 := by
              rw [hls] at heq
              exact_mod_cast heq
            subst hss
            have hz : size = 0 :=
              hns (k - 1) size (by omega) hprev (by rw [Nat.sub_add_cancel hkpos]; exact h)
            omega
        have hrec := ih (size : Int) (k + 1) (by omega) (by omega)
          (Or.inr ⟨Nat.succ_pos k, size, rfl, by simpa using h⟩)
        simp [waitGo, h, hc, hrec]

/-- If the size sequence reaches a nonzero final value F at poll G and
holds it ever after, the loop returns stable no later than poll G + 1,
provided the fuel reaches past G + 1.  The lastSize invariant says that at
a positive poll index, lastSize is the size read at the previous poll. -/
theorem waitGo_reaches_stable (readAt : Nat → PollResult) (sz : Nat → Nat) (G F : Nat)
    (hread : ∀ k, readAt k = PollResult.found (sz k)) (hF : 0 < F)
    (hG : ∀ k, G ≤ k → sz k = F) :
    ∀ (r : Nat) (ls : Int) (k : Nat), k ≤ G + 1 → G + 2 ≤ k + r →
      (0 < k → ls = ((sz (k - 1) : Nat) : Int)) →
      (waitGo readAt r ls k).1 = Verdict.stable ∧ (waitGo readAt r ls k).2 ≤ G + 1 := by
  intro r
  induction r with
  | zero =>
    intro ls k hk hf _
    exfalso
    omega
  | succ n ih =>
    intro ls k hk hf hls
    have h : readAt k = PollResult.found (sz k) := hread k
    by_cases hc : 0 < sz k ∧ ((sz k : Nat) : Int) = ls
    · constructor
      · simp [waitGo, h, hc]
      · have hidx : (waitGo readAt (n + 1) ls k).2 = k := by simp [waitGo, h, hc]
        omega
    · have hkG : k ≤ G := by
        by_contra hgt
        have hkeq : k = G + 1 := by omega
        subst hkeq
        apply hc
        constructor
        · rw [hG (G + 1) (by omega)]
          exact hF
        · have e1 : sz (G + 1) = F := hG (G + 1) (by omega)
          have e2 : ls = ((sz (G + 1 - 1) : Nat) : Int) := hls (by omega)
          have e4 : G + 1 - 1 = G := by omega
          rw [e4] at e2
          have e3 : sz G = F := hG G (by omega)
          rw [e1, e2, e3]
      have hstep : waitGo readAt (n + 1) ls k = waitGo readAt n ((sz k : Nat) : Int) (k + 1) := by
        simp [waitGo, h, hc]
      rw [hstep]
      exact ih ((sz k : Nat) : Int) (k + 1) (by omega) (by omega) (fun _ => rfl)

/-- With the pause flag set, the consumer shows no popup for any list of
emitted signals. -/
theorem filterMap_on_new_file_true (l : List String) :
    l.filterMap (on_new_file true) = [] := by
  induction l with
  | nil => rfl
  | cons a t ih => simp [List.filterMap_cons, on_new_file, ih]

/-- With the pause flag clear, the consumer shows one popup per emitted
signal, in order. -/
theorem filterMap_on_new_file_false (l : List String) :
    l.filterMap (on_new_file false) = l := by
  induction l with
  | nil => rfl
  | cons a t ih => simp [List.filterMap_cons, on_new_file, ih]

/-- Claim C1: for every candidate path, the stability checker returns
Stable only after two consecutive size readings that are equal and
nonzero; in particular the very first reading can never yield Stable,
because the sentinel initial value -1 compares unequal to every real size
including 0.  The conclusion exhibits the two consecutive equal nonzero
readings and shows the check returned at the second of them, so the return
index is at least 1: no check returns Stable on its first reading. -/
theorem claim1_stable_needs_two_reads (readAt : Nat → PollResult) (pollMs timeoutMs : Nat)
    (h : (wait_verdict readAt pollMs timeoutMs).1 = Verdict.stable) :
    ∃ j s, 0 < s ∧ readAt j = PollResult.found s ∧ readAt (j + 1) = PollResult.found s ∧
      (wait_verdict readAt pollMs timeoutMs).2 = j + 1 :=
  waitGo_stable_two_reads readAt (numPolls pollMs timeoutMs) (-1) 0 (Or.inl rfl) h

/-- Witness for claim C1: a file read as 7 bytes at every poll is declared
stable at poll index 1, after the two equal nonzero readings at polls 0
and 1. -/
theorem claim1_witness :
    ∃ j s, 0 < s ∧ wit1Read j = PollResult.found s ∧ wit1Read (j + 1) = PollResult.found s ∧
      (wait_verdict wit1Read POLL_INTERVAL_MS DEFAULT_TIMEOUT_MS).2 = j + 1 :=
  claim1_stable_needs_two_reads wit1Read POLL_INTERVAL_MS DEFAULT_TIMEOUT_MS (by decide)

/-- Claim C2: for every creation event that passes the directory and
extension filters, the watcher emits exactly one file_created signal,
carrying the file path, when the stability check ends in Stable or
TimedOutAssumedStable, and emits nothing when it ends in
VanishedBeforeStable. -/
theorem claim2_filtered_event_emission (readAt : Nat → PollResult) (e : FsEvent)
    (hdir : e.is_directory = false)
    (hext : pathSuffixLower e.src_path ∈ IMAGE_EXTS) :
    on_created readAt e =
      if (wait_verdict readAt POLL_INTERVAL_MS DEFAULT_TIMEOUT_MS).1 = Verdict.vanishedBeforeStable
      then [] else [e.src_path] := by
  have h1 : on_created readAt e =
      (if wait_for_stable_file readAt DEFAULT_TIMEOUT_MS then [e.src_path] else []) := by
    unfold on_created
    rw [hdir]
    simp [hext]
  have hb : wait_for_stable_file readAt DEFAULT_TIMEOUT_MS =
      isNotVanished (wait_verdict readAt POLL_INTERVAL_MS DEFAULT_TIMEOUT_MS).1 :=
    waitB_eq_verdict readAt (numPolls POLL_INTERVAL_MS DEFAULT_TIMEOUT_MS) (-1) 0
  rw [h1, hb]
  cases hv : (wait_verdict readAt POLL_INTERVAL_MS DEFAULT_TIMEOUT_MS).1 <;>
    simp [isNotVanished]

/-- Witness for claim C2: a nondirectory creation event for shot.png whose
file reads 5 bytes at every poll; the check is Stable, not vanished, and
exactly one signal with the path is emitted. -/
theorem claim2_witness :
    on_created wit2Read (FsEvent.mk false "shot.png") =
      if (wait_verdict wit2Read POLL_INTERVAL_MS DEFAULT_TIMEOUT_MS).1 =
          Verdict.vanishedBeforeStable
      then [] else ["shot.png"] :=
  claim2_filtered_event_emission wit2Read (FsEvent.mk false "shot.png") rfl (by decide)

/-- Claim C3: for every candidate file that is never deleted and never
shows two consecutive equal nonzero size readings, the stability check
returns TimedOutAssumedStable once the 2.5 s deadline, measured from the
first observation, elapses; the check never blocks indefinitely.  In the
discrete time model the check performs exactly numPolls polls, returns the
timeout verdict at poll index numPolls, and that index is the first whose
scheduled time, 80 ms per poll, is at or past the 2500 ms deadline; the
model is a total function, so the check terminates on every input. -/
theorem claim3_growth_times_out (readAt : Nat → PollResult)
    (hfd : ∀ k, readAt k ≠ PollResult.notFound)
    (hns : ∀ j s, readAt j = PollResult.found s → readAt (j + 1) = PollResult.found s → s = 0) :
    wait_verdict readAt POLL_INTERVAL_MS DEFAULT_TIMEOUT_MS =
      (Verdict.timedOutAssumedStable, numPolls POLL_INTERVAL_MS DEFAULT_TIMEOUT_MS) ∧
    DEFAULT_TIMEOUT_MS ≤ POLL_INTERVAL_MS * numPolls POLL_INTERVAL_MS DEFAULT_TIMEOUT_MS := by
  constructor
  · have h := waitGo_no_stable_times_out readAt hfd hns
      (numPolls POLL_INTERVAL_MS DEFAULT_TIMEOUT_MS) (-1) 0 (Or.inl rfl)
    simpa [wait_verdict] using h
  · decide

/-- Witness for claim C3: a file that grows by one byte at every poll and
is never deleted; the check times out at poll index numPolls = 32. -/
theorem claim3_witness :
    (wait_verdict wit3Read POLL_INTERVAL_MS DEFAULT_TIMEOUT_MS =
      (Verdict.timedOutAssumedStable, numPolls POLL_INTERVAL_MS DEFAULT_TIMEOUT_MS)) ∧
    DEFAULT_TIMEOUT_MS ≤ POLL_INTERVAL_MS * numPolls POLL_INTERVAL_MS DEFAULT_TIMEOUT_MS :=
  claim3_growth_times_out wit3Read
    (fun k => by simp [wit3Read])
    (fun j s h1 h2 => by
      simp [wit3Read] at h1 h2
      omega)

/-- Claim C4: if any size poll actually performed during a stability check
reports the file missing, the checker immediately returns
VanishedBeforeStable, never Stable, regardless of the earlier readings,
and the watcher silently drops the file: on_created emits nothing for any
event checked against this file.  The hypotheses state that poll k0 is
reached: it falls before the deadline, every earlier poll found the file,
and no two consecutive equal nonzero readings occur before k0 (otherwise
the check would already have ended Stable before observing the missing
file). -/
theorem claim4_notfound_drops (readAt : Nat → PollResult) (k0 : Nat)
    (hk0 : POLL_INTERVAL_MS * k0 < DEFAULT_TIMEOUT_MS)
    (hnf : readAt k0 = PollResult.notFound)
    (hfd : ∀ j, j < k0 → readAt j ≠ PollResult.notFound)
    (hns : ∀ j s, j + 1 < k0 → readAt j = PollResult.found s →
      readAt (j + 1) = PollResult.found s → s = 0) :
    (wait_verdict readAt POLL_INTERVAL_MS DEFAULT_TIMEOUT_MS).1 = Verdict.vanishedBeforeStable ∧
    ∀ e : FsEvent, on_created readAt e = [] := by
  have hk0p : k0 < numPolls POLL_INTERVAL_MS DEFAULT_TIMEOUT_MS :=
    (lt_numPolls_iff POLL_INTERVAL_MS DEFAULT_TIMEOUT_MS k0 (by decide)).mpr hk0
  have hv : waitGo readAt (numPolls POLL_INTERVAL_MS DEFAULT_TIMEOUT_MS) (-1) 0 =
      (Verdict.vanishedBeforeStable, k0) :=
    waitGo_vanishes readAt k0 hnf hfd hns
      (numPolls POLL_INTERVAL_MS DEFAULT_TIMEOUT_MS) (-1) 0 (Nat.zero_le k0) (by omega)
      (Or.inl rfl)
  constructor
  · show (waitGo readAt (numPolls POLL_INTERVAL_MS DEFAULT_TIMEOUT_MS) (-1) 0).1 = _
    rw [hv]
  · intro e
    have hb : wait_for_stable_file readAt DEFAULT_TIMEOUT_MS = false := by
      show waitB readAt (numPolls POLL_INTERVAL_MS DEFAULT_TIMEOUT_MS) (-1) 0 = false
      rw [waitB_eq_verdict readAt, hv]
      rfl
    unfold on_created
    rw [hb]
    cases e.is_directory <;> simp

/-- Witness for claim C4: a file read once as 3 bytes and then gone; the
check vanishes and the watcher emits nothing for a nondirectory png
event. -/
theorem claim4_witness :
    (wait_verdict wit4Read POLL_INTERVAL_MS DEFAULT_TIMEOUT_MS).1 = Verdict.vanishedBeforeStable ∧
    on_created wit4Read (FsEvent.mk false "x.png") = [] := by
  have h := claim4_notfound_drops wit4Read 1 (by decide) (by decide)
    (fun j hj => by
      have hj0 : j = 0 := by omega
      subst hj0
      decide)
    (fun j s hj h1 h2 => absurd hj (by omega))
  exact ⟨h.1, h.2 (FsEvent.mk false "x.png")⟩

/-- Claim C5: for a file all of whose observed size readings are 0, the
checker never returns Stable before the timeout: the Stable return branch
is unreachable while every observed size is zero, for any poll interval
and timeout. -/
theorem claim5_all_zero_never_stable (readAt : Nat → PollResult) (pollMs timeoutMs : Nat)
    (hzero : ∀ k s, readAt k = PollResult.found s → s = 0) :
    (wait_verdict readAt pollMs timeoutMs).1 ≠ Verdict.stable :=
  waitGo_zero_not_stable readAt hzero (numPolls pollMs timeoutMs) (-1) 0

/-- Witness for claim C5: a file read as 0 bytes at every poll is never
declared Stable under the default 80 ms interval and 2.5 s timeout. -/
theorem claim5_witness :
    (wait_verdict wit5Read POLL_INTERVAL_MS DEFAULT_TIMEOUT_MS).1 ≠ Verdict.stable :=
  claim5_all_zero_never_stable wit5Read POLL_INTERVAL_MS DEFAULT_TIMEOUT_MS
    (fun k s h => by
      simp [wit5Read] at h
      omega)

/-- Claim C6, amended: for every file whose size sequence sz is
monotonically nondecreasing and reaches a final nonzero value F at poll G,
growth time G poll intervals, holding it from then on, the checker returns
Stable within G + 1 polls, that is within ceil of growth time over poll
interval, plus one, polls, PROVIDED the confirming poll still falls inside
the timeout window: pollMs * (G + 1) < timeoutMs.  Without that proviso
the claim is false, see the counterexample below. -/
theorem claim6_monotone_growth_stable (readAt : Nat → PollResult) (sz : Nat → Nat)
    (pollMs timeoutMs G F : Nat) (hp : 0 < pollMs)
    (hread : ∀ k, readAt k = PollResult.found (sz k))
    (hmono : Monotone sz) (hF : 0 < F) (hG : ∀ k, G ≤ k → sz k = F)
    (hdl : pollMs * (G + 1) < timeoutMs) :
    (wait_verdict readAt pollMs timeoutMs).1 = Verdict.stable ∧
    (wait_verdict readAt pollMs timeoutMs).2 ≤ G + 1 := by
  have hnum : G + 1 < numPolls pollMs timeoutMs :=
    (lt_numPolls_iff pollMs timeoutMs (G + 1) hp).mpr hdl
  exact waitGo_reaches_stable readAt sz G F hread hF hG
    (numPolls pollMs timeoutMs) (-1) 0 (by omega) (by omega)
    (fun h0 => absurd h0 (by omega))

/-- Counterexample for claim C6 as stated: a size sequence that is
monotonically nondecreasing and reaches its final nonzero value 32 at poll
index 31, 2480 ms after first observation and so before the 2500 ms
deadline, held for at least one poll interval (indeed forever).  The claim
as stated promises a Stable verdict within ceil(2480 / 80) + 1 = 32 polls,
but the confirming poll, index 32, would run at 2560 ms, past the
deadline, so the checker returns TimedOutAssumedStable and never returns
Stable at all. -/
theorem claim6_counterexample :
    Monotone cex6Size ∧ 0 < 32 ∧ heldFrom cex6Size 31 32 ∧
    (wait_verdict cex6Read POLL_INTERVAL_MS DEFAULT_TIMEOUT_MS).1 =
      Verdict.timedOutAssumedStable := by
  refine ⟨?_, by decide, ?_, by decide⟩
  · intro a b hab
    unfold cex6Size
    omega
  · intro k hk
    unfold cex6Size
    omega

/-- Witness for amended claim C6: a file growing 1, 2, 2, 2, ... bytes,
final value 2 reached at poll 1; the checker returns Stable at a poll
index of at most 2. -/
theorem claim6_witness :
    (wait_verdict wit6Read POLL_INTERVAL_MS DEFAULT_TIMEOUT_MS).1 = Verdict.stable ∧
    (wait_verdict wit6Read POLL_INTERVAL_MS DEFAULT_TIMEOUT_MS).2 ≤ 2 :=
  claim6_monotone_growth_stable wit6Read wit6Size POLL_INTERVAL_MS DEFAULT_TIMEOUT_MS 1 2
    (by decide)
    (fun k => rfl)
    (by
      intro a b hab
      unfold wit6Size
      omega)
    (by decide)
    (by
      intro k hk
      unfold wit6Size
      omega)
    (by decide)

/-- Claim C7: a creation event proceeds to the stability check only when
it does not refer to a directory and its lowercase extension is in the
accepted set; whenever the event is a directory or the extension is not
accepted, on_created emits nothing without consulting the file at all.
Of the events for foo.txt, foo.PNG and foo, only foo.PNG reaches the
stability check: for it the outcome is exactly the outcome of the check,
while the other two produce nothing for every possible file behaviour. -/
theorem claim7_extension_filter :
    (∀ (readAt : Nat → PollResult) (e : FsEvent),
      (e.is_directory = true ∨ pathSuffixLower e.src_path ∉ IMAGE_EXTS) →
      on_created readAt e = []) ∧
    (∀ readAt : Nat → PollResult, on_created readAt (FsEvent.mk false "foo.txt") = []) ∧
    (∀ readAt : Nat → PollResult, on_created readAt (FsEvent.mk false "foo") = []) ∧
    (∀ readAt : Nat → PollResult, on_created readAt (FsEvent.mk false "foo.PNG") =
      (if wait_for_stable_file readAt DEFAULT_TIMEOUT_MS then ["foo.PNG"] else [])) := by
  refine ⟨?_, ?_, ?_, ?_⟩
  · intro readAt e hbad
    unfold on_created
    rcases hbad with hd | hx
    · simp [hd]
    · cases hdir : e.is_directory with
      | false => simp [hdir, hx]
      | true => simp [hdir]
  · intro readAt
    have hx : pathSuffixLower "foo.txt" ∉ IMAGE_EXTS := by decide
    unfold on_created
    simp [hx]
  · intro readAt
    have hx : pathSuffixLower "foo" ∉ IMAGE_EXTS := by decide
    unfold on_created
    simp [hx]
  · intro readAt
    have hx : pathSuffixLower "foo.PNG" ∈ IMAGE_EXTS := by decide
    unfold on_created
    simp [hx]

/-- Witness for claim C7: a directory event with an image extension is
dropped without any poll of the file. -/
theorem claim7_witness :
    on_created wit7Read (FsEvent.mk true "dir.png") = [] :=
  claim7_extension_filter.1 wit7Read (FsEvent.mk true "dir.png") (Or.inl rfl)

/-- Counterexample for claim C8 as stated: the configuration structure the
code defines, the AppConfig dataclass of source lines 37 to 41, is flat
but its fields are watch_dir, popup_seconds (default 5) and
max_preview_size (default 220); by the structure eta law in the amended
theorem below these are its only fields, so the accepted extension set,
the 80 ms poll interval and the 2500 ms stability timeout are not fields
of the configuration structure.  They exist with exactly the default
values the claim names, but as the module constant IMAGE_EXTS (line 25),
the hardcoded sleep of line 80, and the parameter default of line 69. -/
theorem claim8_counterexample :
    AppConfig.withDefaults "shots" = AppConfig.mk "shots" 5 220 ∧
    IMAGE_EXTS = [".png", ".jpg", ".jpeg", ".bmp", ".gif", ".webp"] ∧
    POLL_INTERVAL_MS = 80 ∧
    DEFAULT_TIMEOUT_MS = 2500 :=
  ⟨rfl, rfl, rfl, rfl⟩

/-- Claim C8, amended: the configuration dataclass AppConfig is a single
flat structure, but its named fields are exactly watch_dir, popup_seconds
(default 5) and max_preview_size (default 220); the accepted extension
set, with default members png, jpg, jpeg, bmp, gif and webp, the 80 ms
poll interval and the 2500 ms stability timeout are module level constants
and a parameter default of the checker, not fields of the configuration
structure. -/
theorem claim8_config_shape :
    (∀ c : AppConfig, c = AppConfig.mk c.watch_dir c.popup_seconds c.max_preview_size) ∧
    AppConfig.withDefaults "shots" = AppConfig.mk "shots" 5 220 ∧
    IMAGE_EXTS = [".png", ".jpg", ".jpeg", ".bmp", ".gif", ".webp"] ∧
    POLL_INTERVAL_MS = 80 ∧
    DEFAULT_TIMEOUT_MS = 2500 :=
  ⟨fun _ => rfl, rfl, rfl, rfl, rfl⟩

/-- Claim C9: the pause flag has no effect on detection or emission.  For
every creation event the emitted file_created signals are identical for
any two values of the pause flag, because the watcher side never reads it;
pausing only suppresses the preview popups the consumer shows after
receiving the signals, and unpausing shows exactly one popup per signal. -/
theorem claim9_pause_noninterference (p q : Bool) (readAt : Nat → PollResult) (e : FsEvent) :
    (handle_event p readAt e).1 = (handle_event q readAt e).1 ∧
    (handle_event true readAt e).2 = [] ∧
    (handle_event false readAt e).2 = (handle_event false readAt e).1 :=
  ⟨rfl, filterMap_on_new_file_true (on_created readAt e),
    filterMap_on_new_file_false (on_created readAt e)⟩

/-- Claim C10: a zero byte file that persists unchanged through the full
2.5 s timeout still produces a ReadyEvent: the check ends in
TimedOutAssumedStable, which the source maps to True, so the watcher emits
the signal; the zero byte exclusion only delays notification of an empty
file until the timeout, it does not prevent it. -/
theorem claim10_zero_byte_timeout_emits :
    (wait_verdict zeroRead POLL_INTERVAL_MS DEFAULT_TIMEOUT_MS).1 =
      Verdict.timedOutAssumedStable ∧
    on_created zeroRead (FsEvent.mk false "empty.png") = ["empty.png"] :=
  ⟨by decide, by decide⟩
